import Mathlib

/-!
# Verification of the t-shirt design extractor's image-processing pipeline

Shallow embedding of the algorithmic core of the repository:

* `CanvasUtility` (canvas creation and aspect-ratio-preserving resize),
* `ImageProcessorService` (cache keyed by file identity, FIFO-bounded,
  time-expiring; `processImage` orchestration),
* `RemoveBgService` (input validation, retry loop, HTTP error
  classification),
* `ErrorRecovery` (`isRetryable`, `retry`, `withRetry`),
* `PatternExtractor` (row/column opacity-density based bounds finding).

JavaScript numbers are modelled as rationals (`ℚ`): the non-finite values
`NaN`/`Infinity` are outside the model, so `isFinite` checks are vacuously
true and `typeof x === 'number'` checks are enforced by typing.  JavaScript
`Math.round` (round half toward positive infinity) is `jsRound`.  A
JavaScript `Map` is an insertion-ordered association list.  Errors produced
by the services' `_createError` carry `type`, `code` and `retryable`
fields; a plain `Error` carries none of them, hence the `Option` fields.
Asynchronous functions are modelled as pure state-passing functions; an
awaited sub-step (the processing pipeline, the network) is an explicit
oracle argument giving its outcome, plus an invocation count where a claim
is about how often it runs.
-/

/-- JavaScript `Math.round`: rounds half toward positive infinity. -/
def jsRound (x : ℚ) : ℤ := ⌊x + 1/2⌋

/-- Equality of `Except` values is decidable componentwise. -/
instance {ε α : Type} [DecidableEq ε] [DecidableEq α] :
    DecidableEq (Except ε α) := fun x y =>
  match x, y with
  | .ok a, .ok b =>
    if h : a = b then .isTrue (by rw [h])
    else .isFalse (fun hc => h (Except.ok.inj hc))
  | .error a, .error b =>
    if h : a = b then .isTrue (by rw [h])
    else .isFalse (fun hc => h (Except.error.inj hc))
  | .ok _, .error _ => .isFalse (fun hc => Except.noConfusion hc)
  | .error _, .ok _ => .isFalse (fun hc => Except.noConfusion hc)

/-- `ERROR_TYPES` from the constants module. -/
inductive ErrorType where
  | UPLOAD_ERROR
  | PROCESSING_ERROR
  | API_ERROR
  | NETWORK_ERROR
deriving DecidableEq, Repr

/-- `ERROR_CODES` from the constants module. -/
inductive ErrorCode where
  | INVALID_TYPE
  | FILE_TOO_LARGE
  | FILE_CORRUPTED
  | CANVAS_ERROR
  | IMAGE_LOAD_ERROR
  | API_KEY_INVALID
  | API_QUOTA_EXCEEDED
  | API_SERVICE_UNAVAILABLE
  | API_BAD_REQUEST
  | NETWORK_TIMEOUT
  | NETWORK_OFFLINE
deriving DecidableEq, Repr

/-- A thrown JavaScript error as the services observe it.  `_createError`
sets all three fields; a plain `new Error(...)` sets none of them, which is
why each field is optional (reads of absent properties yield `undefined`,
which is falsy). -/
structure JsError where
  type : Option ErrorType
  code : Option ErrorCode
  retryable : Option Bool
deriving DecidableEq, Repr

/-- `_createError(type, code, details, retryable)` (shared shape of
`RemoveBgService._createError` and `ImageProcessorService._createError`):
an error with all classification fields present; at call sites that omit
the flag, `retryable` is `false` (the JS default parameter). -/
def mkError (type : ErrorType) (code : ErrorCode) (retryable : Bool) :
    JsError :=
  { type := some type, code := some code, retryable := some retryable }

/-- A plain `new Error(...)`: no classification fields. -/
def plainError : JsError := { type := none, code := none, retryable := none }

/-- `MAX_CACHE_SIZE` from the constants module. -/
def MAX_CACHE_SIZE : ℕ := 10

/-- `CACHE_EXPIRATION_TIME` from the constants module (1 hour in ms). -/
def CACHE_EXPIRATION_TIME : ℤ := 60 * 60 * 1000

namespace API_RETRY_CONFIG

/-- `API_RETRY_CONFIG.MAX_ATTEMPTS` from the constants module. -/
def MAX_ATTEMPTS : ℕ := 3

/-- `API_RETRY_CONFIG.INITIAL_DELAY` from the constants module (ms). -/
def INITIAL_DELAY : ℚ := 1000

/-- `API_RETRY_CONFIG.BACKOFF_MULTIPLIER` from the constants module. -/
def BACKOFF_MULTIPLIER : ℚ := 2

end API_RETRY_CONFIG

namespace CanvasUtility

/-- `CanvasUtility.createCanvas(width, height)` (part_016, lines 79-93).
Throws the canvas error when a dimension is `<= 0`; the `typeof`/`isFinite`
guards are vacuous over `ℚ`.  The assignments `canvas.width = width` and
`canvas.height = height` go through the `HTMLCanvasElement` IDL
`unsigned long` conversion, which truncates a non-integer toward zero —
for the positive values that pass validation this is the floor (the
modulo-2³² wrap of values at or beyond 2³² is outside the model). -/
def createCanvas (width height : ℚ) : Except ErrorCode (ℚ × ℚ) :=
  if width ≤ 0 ∨ height ≤ 0 then .error .CANVAS_ERROR
  else .ok ((⌊width⌋ : ℚ), (⌊height⌋ : ℚ))

/-- `CanvasUtility.resizeImage(image, maxWidth, maxHeight)` (part_016,
lines 171-219), restricted to the returned canvas dimensions.  The source
image's `width`/`height` are the natural (integer) dimensions of an
`HTMLImageElement`; the bounds are arbitrary JS numbers.  First clamp by
width (rounding the rescaled height), then clamp by height if it still
overflows (rounding the rescaled width). -/
def resizeImage (w h : ℕ) (maxWidth maxHeight : ℚ) :
    Except ErrorCode (ℚ × ℚ) :=
  if maxWidth ≤ 0 ∨ maxHeight ≤ 0 then .error .CANVAS_ERROR
  else if (w : ℚ) ≤ maxWidth ∧ (h : ℚ) ≤ maxHeight then
    createCanvas w h
  else
    let p1 : ℚ × ℚ :=
      if maxWidth < (w : ℚ) then
        (maxWidth, (jsRound ((h : ℚ) * (maxWidth / (w : ℚ))) : ℚ))
      else ((w : ℚ), (h : ℚ))
    let p2 : ℚ × ℚ :=
      if maxHeight < p1.2 then
        ((jsRound (p1.1 * (maxHeight / p1.2)) : ℚ), maxHeight)
      else p1
    createCanvas p2.1 p2.2

end CanvasUtility

/-- A JavaScript `Map` is iteration-ordered by first insertion; we model it
as an association list in insertion order. -/
abbrev JsMap (K V : Type) := List (K × V)

/-- `Map.prototype.get`. -/
def mapGet {K V : Type} [DecidableEq K] (c : JsMap K V) (k : K) : Option V :=
  (c.find? (fun p => decide (p.1 = k))).map Prod.snd

/-- `Map.prototype.set`: updates in place (keeping the original position)
when the key is present, appends at the end otherwise. -/
def mapSet {K V : Type} [DecidableEq K] (c : JsMap K V) (k : K) (v : V) :
    JsMap K V :=
  if (mapGet c k).isSome then
    c.map (fun p => if p.1 = k then (k, v) else p)
  else c ++ [(k, v)]

/-- `Map.prototype.delete`: removes the entry for the key, keeping every
other entry in order. -/
def mapDelete {K V : Type} [DecidableEq K] (c : JsMap K V) (k : K) :
    JsMap K V :=
  c.filter (fun p => decide (p.1 ≠ k))

/-- `this.cache.keys().next().value`: the first-inserted key. -/
def firstKey {K V : Type} (c : JsMap K V) : Option K :=
  c.head?.map Prod.fst

namespace ImageProcessorService

/-- The identity attributes of a `File` that `_generateCacheKey` reads. -/
structure FileMeta where
  name : String
  size : ℕ
  lastModified : ℤ
  type : String
deriving DecidableEq, Repr

/-- `ImageProcessorService._generateCacheKey(file)`
(ImageProcessorService.js, lines 353-358). -/
def generateCacheKey (file : FileMeta) : String :=
  file.name ++ "-" ++ toString file.size ++ "-" ++
    toString file.lastModified ++ "-" ++ file.type

/-- A cache slot: `{ result, timestamp }` as stored by `_cacheResult`. -/
structure CacheEntry (R : Type) where
  result : R
  timestamp : ℤ
deriving DecidableEq, Repr

/-- `ImageProcessorService._getCachedResult(cacheKey)`
(ImageProcessorService.js, lines 369-387).  Returns the stored result when
present and not expired; deletes an expired entry.  The returned map is the
cache after the call (the only mutation is the expiry deletion). -/
def getCachedResult {R : Type} (cache : JsMap String (CacheEntry R))
    (cacheKey : String) (now : ℤ) :
    Option R × JsMap String (CacheEntry R) :=
  match mapGet cache cacheKey with
  | none => (none, cache)
  | some cached =>
    if CACHE_EXPIRATION_TIME < now - cached.timestamp then
      (none, mapDelete cache cacheKey)
    else
      (some cached.result, cache)

/-- `ImageProcessorService._cacheResult(cacheKey, result)`
(ImageProcessorService.js, lines 401-414).  When the size has reached
`MAX_CACHE_SIZE`, deletes the first-inserted key, then stores the result
with the current timestamp. -/
def cacheResult {R : Type} (cache : JsMap String (CacheEntry R))
    (cacheKey : String) (result : R) (now : ℤ) :
    JsMap String (CacheEntry R) :=
  let cache' :=
    if MAX_CACHE_SIZE ≤ cache.length then
      match firstKey cache with
      | some k => mapDelete cache k
      | none => cache
    else cache
  mapSet cache' cacheKey { result := result, timestamp := now }

/-- What the successful middle of the pipeline (file read, image decode,
compression, background removal, final decode) produces: the fields of the
result other than timing and cache provenance. -/
structure PipeOut where
  originalDataUrl : String
  extractedDataUrl : String
  width : ℕ
  height : ℕ
deriving DecidableEq, Repr

/-- The value `processImage` resolves with. -/
structure ProcResult where
  originalDataUrl : String
  extractedDataUrl : String
  width : ℕ
  height : ℕ
  processingTime : ℤ
  fromCache : Bool
deriving DecidableEq, Repr

/-- The mutable state of the service that `processImage` touches, plus the
cumulative invocation count of the background-removal API client (the
observable the cache claims speak about). -/
structure ProcState where
  cache : JsMap String (CacheEntry ProcResult)
  apiCalls : ℕ
  apiConfigured : Bool
deriving DecidableEq, Repr

/-- `ImageProcessorService.processImage(imageFile)`
(ImageProcessorService.js, lines 77-166).  `pipeline` is the oracle for the
awaited middle of a cache-miss run (`_fileToDataUrl` through the final
`loadImage`), returning its outcome together with how many times it invoked
the background-removal API; `tStart` is `Date.now()` at entry and `tNow`
the time at the cache lookup / result construction.  A caught error that
carries `type` and `code` is rethrown unchanged, anything else is wrapped
as a processing/canvas error. -/
def processImage (pipeline : FileMeta → Except JsError PipeOut × ℕ)
    (st : ProcState) (imageFile : Option FileMeta) (tStart tNow : ℤ) :
    Except JsError ProcResult × ProcState :=
  match imageFile with
  | none => (.error (mkError .PROCESSING_ERROR .API_BAD_REQUEST false), st)
  | some file =>
    if st.apiConfigured = false then
      (.error (mkError .API_ERROR .API_SERVICE_UNAVAILABLE false), st)
    else
      let cacheKey := generateCacheKey file
      match getCachedResult st.cache cacheKey tNow with
      | (some cachedResult, cache') =>
        (.ok { cachedResult with
                 processingTime := tNow - tStart, fromCache := true },
         { st with cache := cache' })
      | (none, cache') =>
        match pipeline file with
        | (.error e, napi) =>
          let e' := if e.type.isSome && e.code.isSome then e
                    else mkError .PROCESSING_ERROR .CANVAS_ERROR false
          (.error e',
           { st with cache := cache', apiCalls := st.apiCalls + napi })
        | (.ok out, napi) =>
          let result : ProcResult :=
            { originalDataUrl := out.originalDataUrl
              extractedDataUrl := out.extractedDataUrl
              width := out.width
              height := out.height
              processingTime := tNow - tStart
              fromCache := false }
          (.ok result,
           { st with cache := cacheResult cache' cacheKey result tNow,
                     apiCalls := st.apiCalls + napi })

end ImageProcessorService

namespace RemoveBgService

/-- The only attribute of a `Blob` the claims need: its byte size. -/
structure Blob where
  size : ℕ
deriving DecidableEq, Repr

/-- The attempts loop of `RemoveBgService._executeWithRetry(operation)`
(BackgroundRemovalAPI.js, lines 219-248), running attempts numbered
`attempt, attempt+1, ...` with `fuel` attempts left, and counting how many
times `operation` is invoked.  A non-retryable error (the `retryable`
property not `true`, absent counting as falsy) is rethrown at once; so is
any error on the final attempt.  Fuel `0` is the unreachable trailing
`throw lastError` (at entry it happens only for `maxRetries = 0`, where the
JS loop throws `undefined`, an error with no fields). -/
def runAttempts {α : Type} (operation : ℕ → Except JsError α)
    (attempt : ℕ) : ℕ → Except JsError α × ℕ
  | 0 => (.error plainError, 0)
  | fuel + 1 =>
    match operation attempt with
    | .ok a => (.ok a, 1)
    | .error e =>
      if e.retryable ≠ some true then (.error e, 1)
      else if fuel = 0 then (.error e, 1)
      else
        let r := runAttempts operation (attempt + 1) fuel
        (r.1, r.2 + 1)

/-- `RemoveBgService._executeWithRetry(operation)` with `this.maxRetries =
maxRetries`: attempts start at 1.  Returns the outcome and the number of
times `operation` ran. -/
def executeWithRetry {α : Type} (operation : ℕ → Except JsError α)
    (maxRetries : ℕ) : Except JsError α × ℕ :=
  runAttempts operation 1 maxRetries

/-- `RemoveBgService._handleApiError(response)` (BackgroundRemovalAPI.js,
lines 257-304), as a function of `response.status`, using the
`HTTP_STATUS` constants (400, 401, 402, 403, 429, 500, 503). -/
def handleApiError (status : ℕ) : JsError :=
  if status = 400 then
    mkError .API_ERROR .API_BAD_REQUEST false
  else if status = 401 ∨ status = 403 then
    mkError .API_ERROR .API_KEY_INVALID false
  else if status = 402 ∨ status = 429 then
    mkError .API_ERROR .API_QUOTA_EXCEEDED false
  else if status = 500 ∨ status = 503 then
    mkError .API_ERROR .API_SERVICE_UNAVAILABLE true
  else
    mkError .API_ERROR .API_SERVICE_UNAVAILABLE (decide (500 ≤ status))

/-- `RemoveBgService.removeBackground(imageBlob, options)`
(BackgroundRemovalAPI.js, lines 95-189), restricted to what the validation
claims observe.  The input is `none` for a null/undefined or non-`Blob`
argument and `some b` for a `Blob` of `b.size` bytes.  `server` is the
oracle for one awaited HTTP round-trip (already routed through
`_handleApiError` / the network-error wrapping of the inner catch).
Returns the outcome and the number of network requests issued. -/
def removeBackground (server : ℕ → Except JsError Blob) (maxRetries : ℕ)
    (imageBlob : Option Blob) : Except JsError Blob × ℕ :=
  match imageBlob with
  | none => (.error (mkError .PROCESSING_ERROR .API_BAD_REQUEST false), 0)
  | some _ => executeWithRetry server maxRetries

end RemoveBgService

namespace ErrorRecovery

/-- `ErrorRecovery.isRetryable(error)` (ErrorRecovery.js, lines 88-142).
A null/undefined argument is `none`.  An explicit boolean `retryable` flag
wins; otherwise classification is by `type`, and for API errors by whether
`code` is in the retryable / non-retryable lists (an absent `code` is falsy
and skips both membership tests). -/
def isRetryable (error : Option JsError) : Bool :=
  match error with
  | none => false
  | some err =>
    match err.retryable with
    | some b => b
    | none =>
      if err.type = some .NETWORK_ERROR then true
      else if err.type = some .API_ERROR then
        if err.code = some .API_QUOTA_EXCEEDED ∨
            err.code = some .API_SERVICE_UNAVAILABLE ∨
            err.code = some .NETWORK_TIMEOUT then true
        else if err.code = some .API_KEY_INVALID ∨
            err.code = some .API_BAD_REQUEST then false
        else true
      else if err.type = some .PROCESSING_ERROR then true
      else if err.type = some .UPLOAD_ERROR then false
      else false

/-- The attempts loop of `ErrorRecovery.retry` (ErrorRecovery.js, lines
186-213): unlike the Recognition Client's loop it never looks at the
error's classification; every failure before the final attempt schedules a
backoff delay `initialDelay * backoffMultiplier ^ (attempt - 1)` and
continues.  Returns the outcome, the invocation count and the list of
delays slept. -/
def retryGo {α : Type} (operation : ℕ → Except JsError α)
    (initialDelay backoffMultiplier : ℚ) (attempt : ℕ) :
    ℕ → Except JsError α × ℕ × List ℚ
  | 0 => (.error plainError, 0, [])
  | fuel + 1 =>
    match operation attempt with
    | .ok a => (.ok a, 1, [])
    | .error e =>
      if fuel = 0 then (.error e, 1, [])
      else
        let delay := initialDelay * backoffMultiplier ^ (attempt - 1)
        let r := retryGo operation initialDelay backoffMultiplier
          (attempt + 1) fuel
        (r.1, r.2.1 + 1, delay :: r.2.2)

/-- `ErrorRecovery.retry(operation, maxAttempts, initialDelay,
backoffMultiplier)` (ErrorRecovery.js, lines 169-217).  `maxAttempts < 1`
throws a plain `Error` before any attempt. -/
def retry {α : Type} (operation : ℕ → Except JsError α) (maxAttempts : ℕ)
    (initialDelay backoffMultiplier : ℚ) :
    Except JsError α × ℕ × List ℚ :=
  if maxAttempts < 1 then (.error plainError, 0, [])
  else retryGo operation initialDelay backoffMultiplier 1 maxAttempts

/-- `ErrorRecovery.withRetry(operation, options)` (ErrorRecovery.js, lines
294-313): delegates to `retry` and consults `isRetryable` only in its catch
clause, after every attempt has already run — both branches rethrow the
same error. -/
def withRetry {α : Type} (operation : ℕ → Except JsError α)
    (maxAttempts : ℕ) (initialDelay backoffMultiplier : ℚ) :
    Except JsError α × ℕ × List ℚ :=
  match retry operation maxAttempts initialDelay backoffMultiplier with
  | (.ok a, n, ds) => (.ok a, n, ds)
  | (.error e, n, ds) =>
    if isRetryable (some e) = false then (.error e, n, ds)
    else (.error e, n, ds)

end ErrorRecovery

namespace PatternExtractor

/-- `PatternExtractor._calculateRowDensity(pixels, width, height)`
(PatternExtractor.js, lines 351-370).  `pixels` is the raw interleaved RGBA
array; the alpha of pixel `(x, y)` sits at index `(y*width+x)*4 + 3`
(out-of-range reads are `undefined`, which fails the `> 10` test, matching
`getD 0`).  Row `y`'s density is the fraction of its pixels with alpha
above 10. -/
def calculateRowDensity (pixels : List ℕ) (width height : ℕ) : List ℚ :=
  (List.range height).map (fun y =>
    (((List.range width).countP
        (fun x => decide (10 < pixels.getD ((y * width + x) * 4 + 3) 0))) : ℚ)
      / (width : ℚ))

/-- `PatternExtractor._calculateColumnDensity(pixels, width, height)`
(PatternExtractor.js, lines 381-400). -/
def calculateColumnDensity (pixels : List ℕ) (width height : ℕ) : List ℚ :=
  (List.range width).map (fun x =>
    (((List.range height).countP
        (fun y => decide (10 < pixels.getD ((y * width + x) * 4 + 3) 0))) : ℚ)
      / (height : ℚ))

/-- The `{top, bottom, left, right}` object `_findContentBounds` returns.
JS numbers here are integers (indices and `length - 1`, which can be `-1`
for an empty density array), hence `ℤ`. -/
structure Bounds where
  top : ℤ
  bottom : ℤ
  left : ℤ
  right : ℤ
deriving DecidableEq, Repr

/-- Index of the first entry strictly above the threshold (the forward
`for` loops of `_findContentBounds`). -/
def firstIdxOver (l : List ℚ) (t : ℚ) : Option ℕ :=
  l.findIdx? (fun d => decide (t < d))

/-- Index of the last entry strictly above the threshold (the backward
`for` loops of `_findContentBounds`). -/
def lastIdxOver (l : List ℚ) (t : ℚ) : Option ℕ :=
  (l.reverse.findIdx? (fun d => decide (t < d))).map
    (fun j => l.length - 1 - j)

/-- `PatternExtractor._findContentBounds(rowDensity, colDensity, threshold)`
(PatternExtractor.js, lines 411-453).  `top`/`left` keep their initial `0`
when no entry clears the threshold; `bottom`/`right` keep their initial
`length - 1`.  Returns null only when `top >= bottom || left >= right`. -/
def findContentBounds (rowDensity colDensity : List ℚ) (threshold : ℚ) :
    Option Bounds :=
  let top : ℤ :=
    match firstIdxOver rowDensity threshold with
    | some i => i
    | none => 0
  let bottom : ℤ :=
    match lastIdxOver rowDensity threshold with
    | some i => (i : ℤ) + 1
    | none => (rowDensity.length : ℤ) - 1
  let left : ℤ :=
    match firstIdxOver colDensity threshold with
    | some i => i
    | none => 0
  let right : ℤ :=
    match lastIdxOver colDensity threshold with
    | some i => (i : ℤ) + 1
    | none => (colDensity.length : ℤ) - 1
  if bottom ≤ top ∨ right ≤ left then none
  else some { top := top, bottom := bottom, left := left, right := right }

/-- Which way `smartCrop` goes after density analysis (PatternExtractor.js,
lines 296-305): a null bounds result falls back to `extractPattern` (the
color-distance strategy); otherwise it crops to the returned bounds. -/
inductive SmartCropPath where
  | fallback
  | crop (b : Bounds)
deriving DecidableEq, Repr

/-- The bounds-decision portion of `PatternExtractor.smartCrop(image,
options)`: compute row and column densities of the drawn image, find
content bounds at `densityThreshold`, and fall back exactly on null. -/
def smartCropPath (pixels : List ℕ) (width height : ℕ)
    (densityThreshold : ℚ) : SmartCropPath :=
  match findContentBounds (calculateRowDensity pixels width height)
      (calculateColumnDensity pixels width height) densityThreshold with
  | none => .fallback
  | some b => .crop b

end PatternExtractor

/-! ## Theorems -/

open CanvasUtility ImageProcessorService RemoveBgService ErrorRecovery PatternExtractor

/-- If `x < n` then JavaScript rounding of `x` stays `≤ n`
(rounding adds strictly less than one). -/
theorem jsRound_le_of_lt {x : ℚ} {n : ℤ} (h : x < n) : jsRound x ≤ n := by
  have : ⌊x + 1/2⌋ < n + 1 := Int.floor_lt.mpr (by push_cast; linarith)
  unfold jsRound
  omega

/-- `createCanvas` succeeds exactly on positive dimensions and then returns
them truncated by the unsigned-long assignment. -/
theorem createCanvas_ok_iff {wc hc w' h' : ℚ} :
    createCanvas wc hc = .ok (w', h') ↔
      (0 < wc ∧ 0 < hc ∧ w' = (⌊wc⌋ : ℚ) ∧ h' = (⌊hc⌋ : ℚ)) := by
  unfold createCanvas
  split_ifs with hif
  · constructor
    · intro h; cases h
    · rintro ⟨h1, h2, -, -⟩; rcases hif with h | h <;> linarith
  · push_neg at hif
    constructor
    · intro h
      injection h with h
      injection h with h1 h2
      exact ⟨by linarith [hif.1], by linarith [hif.2], h1.symm, h2.symm⟩
    · rintro ⟨-, -, rfl, rfl⟩; rfl

/-- C8 (counterexample). `createCanvas` does not fail on the non-integer
dimension 1.5: validation only rejects non-positive values, so
`createCanvas(1.5, 2)` returns a canvas — of width 1, the unsigned-long
assignment having truncated 1.5 — although 1.5 is not an integer. -/
theorem createCanvas_accepts_non_integer :
    createCanvas (3/2) 2 = .ok (1, 2) ∧ ∀ n : ℤ, ((3:ℚ)/2) ≠ (n : ℚ) := by
  constructor
  · norm_num [createCanvas]
  · intro n hn
    have h2 : (3 : ℚ) = 2 * (n : ℚ) := by field_simp at hn; linarith
    have h3 : (3 : ℤ) = 2 * n := by exact_mod_cast h2
    omega

/-- C8 (amended): `createCanvas(width, height)` fails with the canvas
`ProcessingError` exactly when a dimension is not positive (non-number and
non-finite arguments lie outside the rational model); an integrality check
is absent, so positive non-integer dimensions are accepted but truncated by
the canvas's unsigned-long `width`/`height` assignment; for every pair of
positive finite *integers* the returned canvas's width and height equal the
arguments. -/
theorem createCanvas_validation_characterization (width height : ℚ) :
    (createCanvas width height = .error .CANVAS_ERROR ↔
      (width ≤ 0 ∨ height ≤ 0)) ∧
    (0 < width → 0 < height →
      createCanvas width height = .ok ((⌊width⌋ : ℚ), (⌊height⌋ : ℚ))) ∧
    (∀ wn hn : ℤ, width = (wn : ℚ) → height = (hn : ℚ) →
      0 < width → 0 < height →
      createCanvas width height = .ok (width, height)) := by
  refine ⟨?_, ?_, ?_⟩
  · unfold createCanvas
    split_ifs with hif
    · exact ⟨fun _ => hif, fun _ => rfl⟩
    · constructor
      · intro h; cases h
      · intro h; exact absurd h hif
  · intro hw hh
    exact createCanvas_ok_iff.mpr ⟨hw, hh, rfl, rfl⟩
  · rintro wn hn rfl rfl hw hh
    rw [createCanvas_ok_iff]
    exact ⟨hw, hh, by rw [Int.floor_intCast], by rw [Int.floor_intCast]⟩

/-- C8 (witness): `createCanvas(5, 7)` — integer dimensions — succeeds
with dimensions exactly `(5, 7)`, by the validation characterization. -/
theorem createCanvas_validation_characterization_witness :
    createCanvas 5 7 = .ok (5, 7) :=
  (createCanvas_validation_characterization 5 7).2.2 5 7 (by norm_num)
    (by norm_num) (by norm_num) (by norm_num)

/-- C1 (counterexample).  `resizeImage` on a 3×2 image with bounds
`(2, 100)` (all positive and finite) returns a 2×1 canvas: the aspect
ratio moves from 1.5 to 2, an error of 0.5, far above the claimed 0.01
tolerance — rounding during rescaling breaks the tolerance. -/
theorem resizeImage_tolerance_counterexample :
    resizeImage 3 2 2 100 = .ok (2, 1) ∧
      ¬ |(3:ℚ)/2 - 2/1| < 1/100 := by
  constructor
  · norm_num [resizeImage, createCanvas, jsRound]
  · have h : (3:ℚ)/2 - 2/1 = -(1/2) := by norm_num
    rw [h, abs_neg, abs_of_nonneg (by norm_num : (0:ℚ) ≤ 1/2)]
    norm_num

/-- C1 (amended): for a source image with positive integer dimensions and
positive *integer* bounds, whenever `resizeImage` returns a canvas its
dimensions respect both bounds: `w' ≤ maxW` and `h' ≤ maxH`.  (The 1%
aspect-ratio tolerance fails under rounding, and with non-integer bounds
even the width bound can be overshot by rounding, e.g. bounds (9.9, 96) on
a 99×1000 image yield width 10.) -/
theorem resizeImage_bounds_of_pos (w h maxW maxH : ℕ) (hw : 0 < w)
    (_hh : 0 < h) (hmw : 0 < maxW) (hmh : 0 < maxH) (w' h' : ℚ)
    (heq : resizeImage w h maxW maxH = .ok (w', h')) :
    w' ≤ maxW ∧ h' ≤ maxH := by
  have hmw' : (0:ℚ) < maxW := by exact_mod_cast hmw
  have hmh' : (0:ℚ) < maxH := by exact_mod_cast hmh
  have hw' : (0:ℚ) < w := by exact_mod_cast hw
  unfold resizeImage at heq
  rw [if_neg (by push_neg; exact ⟨by linarith, by linarith⟩)] at heq
  by_cases hfit : (w:ℚ) ≤ maxW ∧ (h:ℚ) ≤ maxH
  · rw [if_pos hfit] at heq
    rcases createCanvas_ok_iff.mp heq with ⟨-, -, rfl, rfl⟩
    simp only [Int.floor_natCast, Int.cast_natCast]
    exact hfit
  · rw [if_neg hfit] at heq
    simp only at heq
    by_cases h1 : (maxW:ℚ) < w
    · rw [if_pos h1] at heq
      by_cases h2 : (maxH:ℚ) < ((jsRound ((h : ℚ) * (maxW / (w : ℚ))) : ℚ))
      · rw [if_pos h2] at heq
        dsimp only at heq
        rcases createCanvas_ok_iff.mp heq with ⟨-, -, rfl, rfl⟩
        simp only [Int.floor_natCast, Int.floor_intCast, Int.cast_natCast]
        refine ⟨?_, le_refl _⟩
        have hlt : (maxW : ℚ) *
            ((maxH : ℚ) / (jsRound ((h : ℚ) * (maxW / (w : ℚ))) : ℚ)) < maxW := by
          have hpos : (0:ℚ) < ((jsRound ((h : ℚ) * (maxW / (w : ℚ))) : ℚ)) := by
            linarith
          have hr1 : (maxH : ℚ) / (jsRound ((h : ℚ) * (maxW / (w : ℚ))) : ℚ) < 1 :=
            (div_lt_one hpos).mpr h2
          calc (maxW : ℚ) * ((maxH : ℚ) / _) < maxW * 1 :=
                mul_lt_mul_of_pos_left hr1 hmw'
            _ = maxW := mul_one _
        exact_mod_cast jsRound_le_of_lt (n := (maxW : ℤ)) (by exact_mod_cast hlt)
      · rw [if_neg h2] at heq
        rcases createCanvas_ok_iff.mp heq with ⟨-, -, rfl, rfl⟩
        simp only [Int.floor_natCast, Int.floor_intCast, Int.cast_natCast]
        exact ⟨le_refl _, by linarith [not_lt.mp h2]⟩
    · rw [if_neg h1] at heq
      have hhbig : (maxH:ℚ) < h := by
        push_neg at hfit
        exact hfit (not_lt.mp h1)
      rw [if_pos hhbig] at heq
      dsimp only at heq
      rcases createCanvas_ok_iff.mp heq with ⟨-, -, rfl, rfl⟩
      simp only [Int.floor_natCast, Int.floor_intCast, Int.cast_natCast]
      refine ⟨?_, le_refl _⟩
      have hlt : (w : ℚ) * ((maxH : ℚ) / (h : ℚ)) < maxW := by
        have hhpos : (0:ℚ) < (h : ℚ) := by linarith
        have hr1 : (maxH : ℚ) / (h : ℚ) < 1 := (div_lt_one hhpos).mpr hhbig
        have h2 : (w : ℚ) * ((maxH : ℚ) / (h : ℚ)) < w * 1 :=
          mul_lt_mul_of_pos_left hr1 hw'
        have h3 : (w:ℚ) ≤ maxW := not_lt.mp h1
        nlinarith
      exact_mod_cast jsRound_le_of_lt (n := (maxW : ℤ)) (by exact_mod_cast hlt)

/-- C1 (witness): a 1000×500 image resized into bounds (500, 500) gives
the 500×250 canvas, whose dimensions respect both bounds. -/
theorem resizeImage_bounds_of_pos_witness :
    (500 : ℚ) ≤ (500 : ℕ) ∧ (250 : ℚ) ≤ (500 : ℕ) :=
  resizeImage_bounds_of_pos 1000 500 500 500 (by norm_num) (by norm_num)
    (by norm_num) (by norm_num) 500 250
    (by norm_num [resizeImage, createCanvas, jsRound])

/-- One unrolling of the Recognition Client's retry loop on a retryable
failure that is not the final attempt. -/
theorem runAttempts_succ_step {α : Type} (op : ℕ → Except JsError α)
    (attempt n : ℕ) (e : JsError) (he : op attempt = .error e)
    (hr : e.retryable = some true) (hn : n ≠ 0) :
    runAttempts op attempt (n + 1) =
      ((runAttempts op (attempt + 1) n).1,
       (runAttempts op (attempt + 1) n).2 + 1) := by
  simp only [runAttempts, he, hr]
  simp [hn]

/-- When every attempt fails retryably, the loop started at `attempt` with
`fuel + 1` attempts left runs them all and surfaces the final attempt's
outcome. -/
theorem runAttempts_always_retryable {α : Type} (op : ℕ → Except JsError α)
    (h : ∀ k, ∃ e, op k = .error e ∧ e.retryable = some true) :
    ∀ (fuel attempt : ℕ),
      runAttempts op attempt (fuel + 1) = (op (attempt + fuel), fuel + 1) := by
  intro fuel
  induction fuel with
  | zero =>
    intro attempt
    obtain ⟨e, he, hr⟩ := h attempt
    simp [runAttempts, he, hr]
  | succ n ih =>
    intro attempt
    obtain ⟨e, he, hr⟩ := h attempt
    rw [runAttempts_succ_step op attempt (n + 1) e he hr (by omega),
      ih (attempt + 1)]
    have harith : attempt + 1 + n = attempt + (n + 1) := by omega
    rw [harith]

/-- C4: if the wrapped operation always throws an error carrying
`retryable = true`, `RemoveBgService._executeWithRetry` invokes it exactly
`maxRetries` times — never more — and propagates the error of the final
attempt to the caller. -/
theorem executeWithRetry_retryable_exhausts {α : Type}
    (op : ℕ → Except JsError α) (maxRetries : ℕ) (hmax : 1 ≤ maxRetries)
    (h : ∀ k, ∃ e, op k = .error e ∧ e.retryable = some true) :
    executeWithRetry op maxRetries = (op maxRetries, maxRetries) := by
  obtain ⟨f, rfl⟩ : ∃ f, maxRetries = f + 1 := ⟨maxRetries - 1, by omega⟩
  unfold executeWithRetry
  rw [runAttempts_always_retryable op h f 1]
  have h1f : 1 + f = f + 1 := by omega
  rw [h1f]

/-- C4 (witness): an operation that always fails with a retryable network
timeout is invoked exactly 3 times under the default `maxRetries = 3`, and
the timeout error comes back. -/
theorem executeWithRetry_retryable_exhausts_witness :
    executeWithRetry
        (fun _ => (.error (mkError .NETWORK_ERROR .NETWORK_TIMEOUT true) :
          Except JsError Blob)) API_RETRY_CONFIG.MAX_ATTEMPTS
      = (.error (mkError .NETWORK_ERROR .NETWORK_TIMEOUT true), 3) :=
  executeWithRetry_retryable_exhausts _ API_RETRY_CONFIG.MAX_ATTEMPTS
    (by norm_num [API_RETRY_CONFIG.MAX_ATTEMPTS]) (fun _ => ⟨_, rfl, rfl⟩)

/-- One unrolling of `ErrorRecovery.retry`'s loop on any failure that is
not the final attempt: no retryability test, a backoff delay is slept. -/
theorem retryGo_succ_step {α : Type} (op : ℕ → Except JsError α) (d m : ℚ)
    (attempt n : ℕ) (e : JsError) (he : op attempt = .error e) (hn : n ≠ 0) :
    retryGo op d m attempt (n + 1) =
      ((retryGo op d m (attempt + 1) n).1,
       (retryGo op d m (attempt + 1) n).2.1 + 1,
       d * m ^ (attempt - 1) :: (retryGo op d m (attempt + 1) n).2.2) := by
  simp only [retryGo, he]
  simp [hn]

/-- When every attempt fails — retryable or not — `ErrorRecovery.retry`'s
loop runs all remaining attempts, sleeping the full exponential-backoff
delays, and surfaces the final attempt's outcome. -/
theorem retryGo_always_error {α : Type} (op : ℕ → Except JsError α) (d m : ℚ)
    (h : ∀ k, ∃ e, op k = .error e) :
    ∀ (fuel attempt : ℕ), 1 ≤ attempt →
      retryGo op d m attempt (fuel + 1) =
        (op (attempt + fuel), fuel + 1,
         (List.range fuel).map (fun i => d * m ^ (attempt - 1 + i))) := by
  intro fuel
  induction fuel with
  | zero =>
    intro attempt _
    obtain ⟨e, he⟩ := h attempt
    simp [retryGo, he]
  | succ n ih =>
    intro attempt hatt
    obtain ⟨e, he⟩ := h attempt
    rw [retryGo_succ_step op d m attempt (n + 1) e he (by omega),
      ih (attempt + 1) (by omega)]
    refine congrArg₂ _ ?_ (congrArg₂ _ ?_ ?_)
    · have harith : attempt + 1 + n = attempt + (n + 1) := by omega
      rw [harith]
    · rfl
    · rw [List.range_succ_eq_map, List.map_cons, List.map_map]
      refine congrArg₂ _ (by norm_num) ?_
      refine List.map_congr_left (fun i _ => ?_)
      simp only [Function.comp_apply]
      have harg : attempt + 1 - 1 + i = attempt - 1 + (i + 1) := by omega
      rw [harg]

/-- `withRetry` and `retry` return the same outcome, count and delays: the
`isRetryable` consultation in `withRetry`'s catch rethrows either way. -/
theorem withRetry_eq_retry {α : Type} (op : ℕ → Except JsError α)
    (maxAttempts : ℕ) (d m : ℚ) :
    ErrorRecovery.withRetry op maxAttempts d m =
      ErrorRecovery.retry op maxAttempts d m := by
  unfold ErrorRecovery.withRetry
  rcases hr : ErrorRecovery.retry op maxAttempts d m with ⟨res, n, ds⟩
  cases res <;> simp

/-- C10: `ErrorRecovery.retry`'s invocation count is independent of error
classification — an operation that always throws a *non-retryable* error
(`retryable = false`) is still invoked exactly `maxAttempts` times, with
the full backoff delays `initialDelay * multiplier ^ i` for
`i = 0, ..., maxAttempts - 2`, before the final error propagates; and
`withRetry` behaves identically to `retry`, consulting `isRetryable` only
after all attempts are exhausted. -/
theorem retry_ignores_classification {α : Type} (op : ℕ → Except JsError α)
    (maxAttempts : ℕ) (d m : ℚ) (hmax : 1 ≤ maxAttempts)
    (h : ∀ k, ∃ e, op k = .error e ∧ e.retryable = some false) :
    ErrorRecovery.retry op maxAttempts d m =
      (op maxAttempts, maxAttempts,
       (List.range (maxAttempts - 1)).map (fun i => d * m ^ i)) ∧
    ErrorRecovery.withRetry op maxAttempts d m =
      ErrorRecovery.retry op maxAttempts d m := by
  refine ⟨?_, withRetry_eq_retry op maxAttempts d m⟩
  obtain ⟨f, rfl⟩ : ∃ f, maxAttempts = f + 1 := ⟨maxAttempts - 1, by omega⟩
  unfold ErrorRecovery.retry
  rw [if_neg (by omega)]
  rw [retryGo_always_error op d m (fun k => (h k).imp (fun e he => he.1)) f 1
    (le_refl 1)]
  have h1f : 1 + f = f + 1 := by omega
  rw [h1f]
  simp

/-- C10 (witness): an operation that always fails with the non-retryable
invalid-key error is invoked exactly 3 times by `retry(…, 3, 1000, 2)`,
the delays 1000·2⁰ and 1000·2¹ are slept, and `withRetry` does the same. -/
theorem retry_ignores_classification_witness :
    ErrorRecovery.retry
        (fun _ => (.error (mkError .API_ERROR .API_KEY_INVALID false) :
          Except JsError Unit)) 3 1000 2
      = (.error (mkError .API_ERROR .API_KEY_INVALID false), 3,
         (List.range 2).map (fun i => (1000:ℚ) * 2 ^ i)) ∧
    ErrorRecovery.withRetry
        (fun _ => (.error (mkError .API_ERROR .API_KEY_INVALID false) :
          Except JsError Unit)) 3 1000 2
      = ErrorRecovery.retry
          (fun _ => (.error (mkError .API_ERROR .API_KEY_INVALID false) :
            Except JsError Unit)) 3 1000 2 :=
  retry_ignores_classification _ 3 1000 2 (by norm_num)
    (fun _ => ⟨_, rfl, rfl⟩)

/-- C7 (counterexample): on the quota/payment class (HTTP 429, same for
402) the two classifiers disagree — `_handleApiError` marks the error
non-retryable (`retryable = false`), while `isRetryable` on the same
API-error code without the explicit flag returns `true`. -/
theorem isRetryable_quota_disagreement :
    (handleApiError 429).retryable = some false ∧
    ErrorRecovery.isRetryable
      (some { handleApiError 429 with retryable := none }) = true := by
  decide

/-- C7 (amended): `ErrorRecovery.isRetryable` mirrors
`RemoveBgService._handleApiError` on the bad-request (400), auth (401/403)
and service-unavailable (5xx) classes: for an API error carrying the code
`_handleApiError` assigns to such a status but no explicit `retryable`
flag, `isRetryable` returns exactly the `retryable` value `_handleApiError`
assigns.  (On the quota/payment class 402/429 the classifiers disagree —
see the counterexample.) -/
theorem isRetryable_matches_handleApiError (s : ℕ)
    (hs : s = 400 ∨ s = 401 ∨ s = 403 ∨ 500 ≤ s) :
    ErrorRecovery.isRetryable
        (some { handleApiError s with retryable := none }) =
      (handleApiError s).retryable.getD false := by
  rcases hs with rfl | rfl | rfl | hs
  · decide
  · decide
  · decide
  · unfold handleApiError
    rw [if_neg (by omega), if_neg (by omega), if_neg (by omega)]
    by_cases h5 : s = 500 ∨ s = 503
    · rw [if_pos h5]
      decide
    · rw [if_neg h5]
      have hd : decide (500 ≤ s) = true := decide_eq_true hs
      rw [hd]
      decide

/-- C7 (witness): at HTTP 400 both classifiers say non-retryable. -/
theorem isRetryable_matches_handleApiError_witness :
    ErrorRecovery.isRetryable
        (some { handleApiError 400 with retryable := none }) =
      (handleApiError 400).retryable.getD false :=
  isRetryable_matches_handleApiError 400 (Or.inl rfl)

/-- C6 (counterexample): a zero-byte image is not rejected —
`removeBackground` on a `Blob` of size 0 passes validation (which only
rejects null/undefined/non-`Blob` inputs) and issues a network request:
with a server answering success, one request goes out and its answer is
returned. -/
theorem removeBackground_zero_byte_counterexample :
    removeBackground (fun _ => .ok ⟨5⟩) 3 (some ⟨0⟩) = (.ok ⟨5⟩, 1) := by
  decide

/-- C6 (amended): `removeBackground` fails fast — with the non-retryable
processing error and with zero network requests issued — exactly on
null/undefined or non-`Blob` input; being non-empty is not validated, so a
zero-byte `Blob` proceeds to the network. -/
theorem removeBackground_rejects_invalid_input
    (server : ℕ → Except JsError Blob) (maxRetries : ℕ) :
    removeBackground server maxRetries none =
      (.error (mkError .PROCESSING_ERROR .API_BAD_REQUEST false), 0) ∧
    (mkError .PROCESSING_ERROR .API_BAD_REQUEST false).retryable =
      some false :=
  ⟨rfl, rfl⟩

/-- A key is absent from a JS map exactly when no entry carries it. -/
theorem mapGet_eq_none_iff {K V : Type} [DecidableEq K] (c : JsMap K V)
    (k : K) : mapGet c k = none ↔ ∀ p ∈ c, p.1 ≠ k := by
  simp [mapGet, List.find?_eq_none]

/-- `Map.set` on an absent key appends the new entry at the end. -/
theorem mapSet_of_get_none {K V : Type} [DecidableEq K] {c : JsMap K V}
    {k : K} (v : V) (h : mapGet c k = none) :
    mapSet c k v = c ++ [(k, v)] := by
  simp [mapSet, h]

/-- Looking up the key of a just-appended entry finds it. -/
theorem mapGet_append_single_self {K V : Type} [DecidableEq K]
    {c : JsMap K V} {k : K} (v : V) (h : mapGet c k = none) :
    mapGet (c ++ [(k, v)]) k = some v := by
  have hf : c.find? (fun p => decide (p.1 = k)) = none := by
    unfold mapGet at h
    rcases hc : c.find? (fun p => decide (p.1 = k)) with _ | p
    · exact hc
    · rw [hc] at h; simp at h
  unfold mapGet
  rw [List.find?_append, hf]
  simp [List.find?]

/-- Deleting some key cannot make an absent key present. -/
theorem mapGet_mapDelete_none {K V : Type} [DecidableEq K] {c : JsMap K V}
    {k : K} (j : K) (h : mapGet c k = none) :
    mapGet (mapDelete c j) k = none := by
  rw [mapGet_eq_none_iff] at h ⊢
  exact fun p hp => h p (List.mem_of_mem_filter hp)

/-- After `_cacheResult` stores a result under a previously absent key,
looking the key up finds the freshly stored `{result, timestamp}` slot
(eviction only removes an existing — hence different — key). -/
theorem mapGet_cacheResult_self {R : Type}
    (c : JsMap String (CacheEntry R)) (k : String) (r : R) (t : ℤ)
    (h : mapGet c k = none) :
    mapGet (cacheResult c k r t) k = some ⟨r, t⟩ := by
  unfold cacheResult
  have hnone : ∀ c₀ : JsMap String (CacheEntry R), mapGet c₀ k = none →
      mapGet (mapSet c₀ k ⟨r, t⟩) k = some ⟨r, t⟩ := by
    intro c₀ h₀
    rw [mapSet_of_get_none _ h₀]
    exact mapGet_append_single_self _ h₀
  split_ifs with hlen
  · rcases hfk : firstKey c with _ | k0
    · simp only
      exact hnone c h
    · simp only
      exact hnone _ (mapGet_mapDelete_none k0 h)
  · exact hnone c h

/-- With pairwise-distinct keys, deleting the first-inserted key removes
exactly the head entry. -/
theorem mapDelete_cons_head {K V : Type} [DecidableEq K] (p : K × V)
    (rest : JsMap K V) (hnd : ((p :: rest).map Prod.fst).Nodup) :
    mapDelete (p :: rest) p.1 = rest := by
  have hp : p.1 ∉ rest.map Prod.fst := by
    rw [List.map_cons] at hnd
    exact (List.nodup_cons.mp hnd).1
  unfold mapDelete
  rw [List.filter_cons]
  have h1 : decide (p.1 ≠ p.1) = false := by simp
  rw [h1]
  simp only [Bool.false_eq_true, if_false]
  apply List.filter_eq_self.mpr
  intro q hq
  simp only [decide_eq_true_eq, ne_eq]
  intro hqe
  exact hp (hqe ▸ List.mem_map_of_mem Prod.fst hq)

/-- One `_cacheResult` insertion of a fresh key appends the key; when the
cache is full it first evicts the first-inserted key: the resident key
sequence is `keys ++ [k]` with the head dropped iff the cache was full. -/
theorem cacheResult_keys_of_not_mem {R : Type}
    (c : JsMap String (CacheEntry R)) (k : String) (r : R) (t : ℤ)
    (hnd : (c.map Prod.fst).Nodup) (hk : ∀ p ∈ c, p.1 ≠ k) :
    (cacheResult c k r t).map Prod.fst =
      (c.map Prod.fst ++ [k]).drop
        (if MAX_CACHE_SIZE ≤ c.length then 1 else 0) := by
  have hget : mapGet c k = none := (mapGet_eq_none_iff c k).mpr hk
  unfold cacheResult
  split_ifs with hlen
  · obtain ⟨p, rest, rfl⟩ : ∃ p rest, c = p :: rest := by
      rcases c with _ | ⟨p, rest⟩
      · simp [MAX_CACHE_SIZE] at hlen
      · exact ⟨p, rest, rfl⟩
    have hfirst : firstKey (p :: rest) = some p.1 := rfl
    rw [hfirst]
    simp only
    rw [mapDelete_cons_head p rest hnd]
    have hrest : mapGet rest k = none := by
      rw [mapGet_eq_none_iff]
      exact fun q hq => hk q (List.mem_cons_of_mem p hq)
    rw [mapSet_of_get_none _ hrest, List.map_append, List.map_cons]
    simp
  · rw [mapSet_of_get_none _ hget, List.map_append]
    simp

/-- Inserting a run of fresh, pairwise-distinct keys into a cache of at
most `MAX_CACHE_SIZE` entries leaves exactly the most recent
`MAX_CACHE_SIZE` of the combined key sequence resident, in order. -/
theorem foldl_cacheResult_keys {R : Type} (r : R) (t : ℤ) :
    ∀ (ks : List String) (c : JsMap String (CacheEntry R)),
      (c.map Prod.fst ++ ks).Nodup → c.length ≤ MAX_CACHE_SIZE →
      (ks.foldl (fun m k => cacheResult m k r t) c).map Prod.fst =
        (c.map Prod.fst ++ ks).drop
          (c.length + ks.length - MAX_CACHE_SIZE) := by
  intro ks
  induction ks with
  | nil =>
    intro c hnd hc
    simp only [List.foldl_nil, List.append_nil, List.length_nil, Nat.add_zero]
    rw [Nat.sub_eq_zero_of_le hc, List.drop_zero]
  | cons k ks ih =>
    intro c hnd hc
    have hndc : (c.map Prod.fst).Nodup := (List.nodup_append.mp hnd).1
    have hdisj : ∀ a ∈ c.map Prod.fst, a ∉ k :: ks :=
      fun a ha => (List.nodup_append.mp hnd).2.2 ha
    have hk : ∀ p ∈ c, p.1 ≠ k := by
      intro p hp hpk
      exact hdisj p.1 (List.mem_map_of_mem Prod.fst hp)
        (hpk ▸ List.mem_cons_self k ks)
    set j := if MAX_CACHE_SIZE ≤ c.length then 1 else 0 with hj
    have hkeys : (cacheResult c k r t).map Prod.fst =
        (c.map Prod.fst ++ [k]).drop j :=
      cacheResult_keys_of_not_mem c k r t hndc hk
    have hjle : j ≤ 1 := by
      rw [hj]; split_ifs <;> omega
    have hlenc : (cacheResult c k r t).length = c.length + 1 - j := by
      have h1 : (cacheResult c k r t).length =
          ((cacheResult c k r t).map Prod.fst).length :=
        (List.length_map _ _).symm
      rw [h1, hkeys, List.length_drop, List.length_append,
        List.length_map, List.length_singleton]
    have hjcase : (MAX_CACHE_SIZE ≤ c.length ∧ j = 1) ∨
        (c.length < MAX_CACHE_SIZE ∧ j = 0) := by
      rw [hj]; split_ifs with hcase
      · exact Or.inl ⟨hcase, rfl⟩
      · exact Or.inr ⟨by omega, rfl⟩
    have hc' : (cacheResult c k r t).length ≤ MAX_CACHE_SIZE := by
      rcases hjcase with ⟨h1, h2⟩ | ⟨h1, h2⟩ <;> omega
    have happ : c.map Prod.fst ++ k :: ks = (c.map Prod.fst ++ [k]) ++ ks := by
      simp
    have hle : j ≤ (c.map Prod.fst ++ [k]).length := by
      rw [List.length_append, List.length_singleton]
      omega
    have hkeys' : (cacheResult c k r t).map Prod.fst ++ ks =
        (c.map Prod.fst ++ k :: ks).drop j := by
      rw [hkeys, happ]
      exact (List.drop_append_of_le_length hle).symm
    have hnd' : ((cacheResult c k r t).map Prod.fst ++ ks).Nodup := by
      rw [hkeys']
      exact (List.drop_sublist j _).nodup (happ ▸ hnd)
    rw [List.foldl_cons, ih (cacheResult c k r t) hnd' hc', hkeys',
      List.drop_drop]
    congr 1
    rcases hjcase with ⟨h1, h2⟩ | ⟨h1, h2⟩ <;>
      simp only [hlenc, h2, List.length_cons] <;> omega

/-- C3: starting from an empty cache, inserting `N > 10` results under
pairwise-distinct keys leaves exactly the last 10 keys resident in
insertion order (so exactly the `N - 10` oldest-inserted keys are
evicted, insertion-order FIFO), and after any insertion the cache never
holds more than `MAX_CACHE_SIZE = 10` entries. -/
theorem cacheResult_fifo_bound (ks : List String) (r : ProcResult) (t : ℤ)
    (hnodup : ks.Nodup) (hlen : MAX_CACHE_SIZE < ks.length) :
    ((ks.foldl (fun c k => cacheResult c k r t) []).map Prod.fst =
       ks.drop (ks.length - MAX_CACHE_SIZE)) ∧
    (ks.foldl (fun c k => cacheResult c k r t) []).length = MAX_CACHE_SIZE ∧
    (∀ k ∈ ks.take (ks.length - MAX_CACHE_SIZE),
       mapGet (ks.foldl (fun c k => cacheResult c k r t) []) k = none) ∧
    (∀ n : ℕ,
       ((ks.take n).foldl (fun c k => cacheResult c k r t) []).length ≤
         MAX_CACHE_SIZE) := by
  have hmain : ∀ (l : List String), l.Nodup →
      ((l.foldl (fun c k => cacheResult c k r t)
          ([] : JsMap String (CacheEntry ProcResult))).map Prod.fst =
        l.drop (l.length - MAX_CACHE_SIZE)) := by
    intro l hl
    have h := foldl_cacheResult_keys r t l [] (by simpa using hl)
      (by simp [MAX_CACHE_SIZE])
    simpa using h
  have hkeys := hmain ks hnodup
  refine ⟨hkeys, ?_, ?_, ?_⟩
  · have h1 : (ks.foldl (fun c k => cacheResult c k r t) []).length =
        ((ks.foldl (fun c k => cacheResult c k r t) []).map Prod.fst).length :=
      (List.length_map _ _).symm
    rw [h1, hkeys, List.length_drop]
    omega
  · intro k hk
    rw [mapGet_eq_none_iff]
    intro p hp hpk
    have hmem : p.1 ∈ ks.drop (ks.length - MAX_CACHE_SIZE) := by
      rw [← hkeys]
      exact List.mem_map_of_mem Prod.fst hp
    have hdisj := List.disjoint_take_drop (m := ks.length - MAX_CACHE_SIZE)
      (n := ks.length - MAX_CACHE_SIZE) hnodup (le_refl _)
    exact hdisj (hpk ▸ hk) hmem
  · intro n
    have htake := hmain (ks.take n) ((List.take_sublist n ks).nodup hnodup)
    have h1 : ((ks.take n).foldl (fun c k => cacheResult c k r t) []).length =
        (((ks.take n).foldl (fun c k => cacheResult c k r t) []).map
          Prod.fst).length :=
      (List.length_map _ _).symm
    rw [h1, htake, List.length_drop]
    omega

/-- C2: processing a file whose identity key misses the cache and then
processing a file with the same identity tuple again before the expiry
window elapses (no intervening eviction) returns `fromCache = false` then
`fromCache = true`, the second result carrying the stored fields, and the
second call leaves the background-removal API invocation count
unchanged. -/
theorem processImage_cache_determinism
    (pipeline : FileMeta → Except JsError PipeOut × ℕ)
    (st0 : ProcState) (f : FileMeta) (out : PipeOut) (napi : ℕ)
    (t0 t1 t2 t3 : ℤ)
    (hconf : st0.apiConfigured = true)
    (hmiss : mapGet st0.cache (generateCacheKey f) = none)
    (hpipe : pipeline f = (.ok out, napi))
    (hfresh : t3 - t1 ≤ CACHE_EXPIRATION_TIME) :
    ∃ r1 st1 r2 st2,
      processImage pipeline st0 (some f) t0 t1 = (.ok r1, st1) ∧
      processImage pipeline st1 (some f) t2 t3 = (.ok r2, st2) ∧
      r1.fromCache = false ∧ r2.fromCache = true ∧
      r2.originalDataUrl = r1.originalDataUrl ∧
      r2.extractedDataUrl = r1.extractedDataUrl ∧
      r2.width = r1.width ∧ r2.height = r1.height ∧
      st1.apiCalls = st0.apiCalls + napi ∧
      st2.apiCalls = st1.apiCalls := by
  set key := generateCacheKey f with hkey
  set r1 : ProcResult :=
    { originalDataUrl := out.originalDataUrl
      extractedDataUrl := out.extractedDataUrl
      width := out.width
      height := out.height
      processingTime := t1 - t0
      fromCache := false } with hr1
  set st1 : ProcState :=
    { cache := cacheResult st0.cache key r1 t1,
      apiCalls := st0.apiCalls + napi,
      apiConfigured := true } with hst1
  have hget1 : getCachedResult st0.cache key t1 = (none, st0.cache) := by
    simp [getCachedResult, hmiss]
  have hcall1 : processImage pipeline st0 (some f) t0 t1 = (.ok r1, st1) := by
    simp only [processImage, hconf, Bool.true_eq_false, if_false, ← hkey,
      hget1, hpipe]
  have hget2 : getCachedResult st1.cache key t3 = (some r1, st1.cache) := by
    have hstored : mapGet st1.cache key = some ⟨r1, t1⟩ :=
      mapGet_cacheResult_self st0.cache key r1 t1 hmiss
    simp only [getCachedResult, hstored]
    rw [if_neg (by omega)]
  have hconf1 : st1.apiConfigured = true := rfl
  set r2 : ProcResult :=
    { r1 with processingTime := t3 - t2, fromCache := true } with hr2
  have hcall2 : processImage pipeline st1 (some f) t2 t3 =
      (.ok r2, { st1 with cache := st1.cache }) := by
    simp only [processImage, hconf, hconf1, Bool.true_eq_false, if_false,
      ← hkey, hget2]
  exact ⟨r1, st1, r2, { st1 with cache := st1.cache }, hcall1, hcall2,
    rfl, rfl, rfl, rfl, rfl, rfl, rfl, rfl⟩

/-- `_getCachedResult` leaves the cache unchanged or only deletes the
looked-up (expired) key. -/
theorem getCachedResult_snd {R : Type} (cache : JsMap String (CacheEntry R))
    (k : String) (now : ℤ) :
    (getCachedResult cache k now).2 = cache ∨
    (getCachedResult cache k now).2 = mapDelete cache k := by
  unfold getCachedResult
  rcases h : mapGet cache k with _ | cached
  · exact Or.inl rfl
  · simp only
    split_ifs
    · exact Or.inr rfl
    · exact Or.inl rfl

/-- C9: whenever `processImage` throws, the call has added no entry to
the cache — the resulting cache's keys are a sublist of the previous ones
(the only possible mutation is the expiry deletion inside the lookup), so
the failed attempt's result is never cached and a later identical call
re-runs the full pipeline. -/
theorem processImage_error_no_cache_write
    (pipeline : FileMeta → Except JsError PipeOut × ℕ) (st : ProcState)
    (file : Option FileMeta) (tStart tNow : ℤ) (e : JsError)
    (st' : ProcState)
    (h : processImage pipeline st file tStart tNow = (.error e, st')) :
    List.Sublist (st'.cache.map Prod.fst) (st.cache.map Prod.fst) ∧
    st'.cache.length ≤ st.cache.length := by
  rcases file with _ | f
  · simp only [processImage] at h
    injection h with h1 h2
    rw [← h2]
    exact ⟨List.Sublist.refl _, le_refl _⟩
  · simp only [processImage] at h
    by_cases hconf : st.apiConfigured = false
    · rw [if_pos hconf] at h
      injection h with h1 h2
      rw [← h2]
      exact ⟨List.Sublist.refl _, le_refl _⟩
    · rw [if_neg hconf] at h
      rcases hg : getCachedResult st.cache (generateCacheKey f) tNow
        with ⟨o, cache'⟩
      rw [hg] at h
      rcases o with _ | r
      · rcases hp : pipeline f with ⟨res, napi⟩
        rw [hp] at h
        rcases res with e0 | a
        · injection h with h1 h2
          rw [← h2]
          have hcc : cache' = st.cache ∨ cache' = mapDelete st.cache
              (generateCacheKey f) := by
            have := getCachedResult_snd st.cache (generateCacheKey f) tNow
            rw [hg] at this
            exact this
          rcases hcc with h' | h'
          · rw [h']
            exact ⟨List.Sublist.refl _, le_refl _⟩
          · rw [h']
            refine ⟨List.Sublist.map Prod.fst ?_, List.Sublist.length_le ?_⟩
              <;> exact List.filter_sublist _
        · injection h with h1 h2
          exact Except.noConfusion h1
      · injection h with h1 h2
        exact Except.noConfusion h1


/-- Reading any index of an alpha array bounded by 10 (out-of-range reads
default to 0) stays bounded by 10. -/
theorem getD_le_of_all_le {l : List ℕ} (h : ∀ a ∈ l, a ≤ 10) :
    ∀ i : ℕ, l.getD i 0 ≤ 10 := by
  induction l with
  | nil => intro i; simp [List.getD]
  | cons a l ih =>
    intro i
    cases i with
    | zero => simpa using h a (List.mem_cons_self a l)
    | succ n =>
      simp only [List.getD_cons_succ]
      exact ih (fun b hb => h b (List.mem_cons_of_mem a hb)) n

/-- Every row density of a buffer whose alpha bytes are all at most the
opacity threshold 10 is zero. -/
theorem calculateRowDensity_transparent (pixels : List ℕ) (w h : ℕ)
    (hpx : ∀ a ∈ pixels, a ≤ 10) :
    ∀ d ∈ calculateRowDensity pixels w h, d = 0 := by
  intro d hd
  simp only [calculateRowDensity, List.mem_map] at hd
  obtain ⟨y, -, rfl⟩ := hd
  have hcount : (List.range w).countP
      (fun x => decide (10 < pixels.getD ((y * w + x) * 4 + 3) 0)) = 0 := by
    apply List.countP_eq_zero.mpr
    intro x _
    simp only [decide_eq_true_eq, not_lt]
    exact getD_le_of_all_le hpx _
  rw [hcount]
  simp

/-- Every column density of a buffer whose alpha bytes are all at most
the opacity threshold 10 is zero. -/
theorem calculateColumnDensity_transparent (pixels : List ℕ) (w h : ℕ)
    (hpx : ∀ a ∈ pixels, a ≤ 10) :
    ∀ d ∈ calculateColumnDensity pixels w h, d = 0 := by
  intro d hd
  simp only [calculateColumnDensity, List.mem_map] at hd
  obtain ⟨x, -, rfl⟩ := hd
  have hcount : (List.range h).countP
      (fun y => decide (10 < pixels.getD ((y * w + x) * 4 + 3) 0)) = 0 := by
    apply List.countP_eq_zero.mpr
    intro y _
    simp only [decide_eq_true_eq, not_lt]
    exact getD_le_of_all_le hpx _
  rw [hcount]
  simp

/-- There is one row density per row. -/
theorem calculateRowDensity_length (pixels : List ℕ) (w h : ℕ) :
    (calculateRowDensity pixels w h).length = h := by
  simp [calculateRowDensity]

/-- There is one column density per column. -/
theorem calculateColumnDensity_length (pixels : List ℕ) (w h : ℕ) :
    (calculateColumnDensity pixels w h).length = w := by
  simp [calculateColumnDensity]

/-- No forward scan hit when every density is at most the threshold. -/
theorem firstIdxOver_eq_none (l : List ℚ) (t : ℚ)
    (h : ∀ d ∈ l, d ≤ t) : firstIdxOver l t = none := by
  unfold firstIdxOver
  rw [List.findIdx?_eq_none_iff]
  intro d hd
  simp only [decide_eq_false_iff_not, not_lt]
  exact h d hd

/-- No backward scan hit when every density is at most the threshold. -/
theorem lastIdxOver_eq_none (l : List ℚ) (t : ℚ)
    (h : ∀ d ∈ l, d ≤ t) : lastIdxOver l t = none := by
  unfold lastIdxOver
  have hrev : l.reverse.findIdx? (fun d => decide (t < d)) = none := by
    have := firstIdxOver_eq_none l.reverse t
      (fun d hd => h d (List.mem_reverse.mp hd))
    unfold firstIdxOver at this
    exact this
  rw [hrev]
  rfl

/-- When no row and no column density exceeds the threshold,
`_findContentBounds` keeps all four initial values — `top = 0`,
`bottom = rows - 1`, `left = 0`, `right = cols - 1` — and returns null
exactly when there is at most one row or at most one column. -/
theorem findContentBounds_all_below (rowDensity colDensity : List ℚ)
    (threshold : ℚ)
    (hrow : ∀ d ∈ rowDensity, d ≤ threshold)
    (hcol : ∀ d ∈ colDensity, d ≤ threshold) :
    findContentBounds rowDensity colDensity threshold =
      if rowDensity.length ≤ 1 ∨ colDensity.length ≤ 1 then none
      else some { top := 0, bottom := (rowDensity.length : ℤ) - 1,
                  left := 0, right := (colDensity.length : ℤ) - 1 } := by
  unfold findContentBounds
  rw [firstIdxOver_eq_none _ _ hrow, lastIdxOver_eq_none _ _ hrow,
    firstIdxOver_eq_none _ _ hcol, lastIdxOver_eq_none _ _ hcol]
  simp only
  have hcond : ((rowDensity.length : ℤ) - 1 ≤ 0 ∨
      (colDensity.length : ℤ) - 1 ≤ 0) ↔
      (rowDensity.length ≤ 1 ∨ colDensity.length ≤ 1) := by omega
  exact if_congr hcond rfl rfl

/-- C5 (amended): for an image in which no row and no column has opacity
density exceeding the threshold, the density-based detection used by
`smartCrop` returns null — and the caller falls back to the
color-distance strategy — only when the image has at most one row or at
most one column; for any larger such image it instead returns the
near-full-frame box `{top: 0, bottom: h-1, left: 0, right: w-1}` and
`smartCrop` crops to it. -/
theorem smartCrop_fallback_characterization (pixels : List ℕ)
    (width height : ℕ) (threshold : ℚ)
    (hrow : ∀ d ∈ calculateRowDensity pixels width height, d ≤ threshold)
    (hcol : ∀ d ∈ calculateColumnDensity pixels width height, d ≤ threshold) :
    smartCropPath pixels width height threshold =
      if height ≤ 1 ∨ width ≤ 1 then .fallback
      else .crop { top := 0, bottom := (height : ℤ) - 1,
                   left := 0, right := (width : ℤ) - 1 } := by
  unfold smartCropPath
  rw [findContentBounds_all_below _ _ _ hrow hcol,
    calculateRowDensity_length, calculateColumnDensity_length]
  split_ifs with hc
  · rfl
  · rfl

/-- C5 (counterexample): a fully transparent 2×2 image has no row or
column above the default 5% density threshold, yet `_findContentBounds`
does not return null — it returns `{top: 0, bottom: 1, left: 0,
right: 1}` — and `smartCrop` crops instead of falling back. -/
theorem smartCrop_transparent_counterexample :
    smartCropPath [0, 0, 0, 0, 0, 0, 0, 0, 0, 0, 0, 0, 0, 0, 0, 0] 2 2
        (1/20) =
      .crop { top := 0, bottom := 1, left := 0, right := 1 } ∧
    findContentBounds
        (calculateRowDensity
          [0, 0, 0, 0, 0, 0, 0, 0, 0, 0, 0, 0, 0, 0, 0, 0] 2 2)
        (calculateColumnDensity
          [0, 0, 0, 0, 0, 0, 0, 0, 0, 0, 0, 0, 0, 0, 0, 0] 2 2)
        (1/20) ≠ none := by
  have hpx : ∀ a ∈ [0, 0, 0, 0, 0, 0, 0, 0, 0, 0, 0, 0, 0, 0, 0, 0],
      a ≤ 10 := by decide
  have hrow : ∀ d ∈ calculateRowDensity
      [0, 0, 0, 0, 0, 0, 0, 0, 0, 0, 0, 0, 0, 0, 0, 0] 2 2, d ≤ 1/20 := by
    intro d hd
    rw [calculateRowDensity_transparent _ 2 2 hpx d hd]
    norm_num
  have hcol : ∀ d ∈ calculateColumnDensity
      [0, 0, 0, 0, 0, 0, 0, 0, 0, 0, 0, 0, 0, 0, 0, 0] 2 2, d ≤ 1/20 := by
    intro d hd
    rw [calculateColumnDensity_transparent _ 2 2 hpx d hd]
    norm_num
  have hfind := findContentBounds_all_below _ _ _ hrow hcol
  rw [calculateRowDensity_length, calculateColumnDensity_length] at hfind
  norm_num at hfind
  constructor
  · unfold smartCropPath
    rw [hfind]
  · rw [hfind]
    simp

/-- C5 (witness): on a fully transparent 1×1 image the detection does
return null and `smartCrop` falls back. -/
theorem smartCrop_fallback_characterization_witness :
    smartCropPath [0, 0, 0, 0] 1 1 (1/20) = .fallback := by
  have hpx : ∀ a ∈ [0, 0, 0, 0], a ≤ 10 := by decide
  have h := smartCrop_fallback_characterization [0, 0, 0, 0] 1 1 (1/20)
    (fun d hd => by
      rw [calculateRowDensity_transparent _ 1 1 hpx d hd]; norm_num)
    (fun d hd => by
      rw [calculateColumnDensity_transparent _ 1 1 hpx d hd]; norm_num)
  simpa using h

/-- C3 (witness): inserting 11 distinct keys leaves keys k1..k10
resident, k0 evicted, and every prefix within the bound. -/
theorem cacheResult_fifo_bound_witness :
    ((["k0", "k1", "k2", "k3", "k4", "k5", "k6", "k7", "k8", "k9",
        "k10"].foldl
        (fun c k => cacheResult c k
          ({ originalDataUrl := "o", extractedDataUrl := "e", width := 1,
             height := 1, processingTime := 0,
             fromCache := false } : ProcResult) 0) []).map Prod.fst =
      ["k0", "k1", "k2", "k3", "k4", "k5", "k6", "k7", "k8", "k9",
        "k10"].drop
        (["k0", "k1", "k2", "k3", "k4", "k5", "k6", "k7", "k8", "k9",
          "k10"].length - MAX_CACHE_SIZE)) ∧
    (["k0", "k1", "k2", "k3", "k4", "k5", "k6", "k7", "k8", "k9",
       "k10"].foldl
       (fun c k => cacheResult c k
         ({ originalDataUrl := "o", extractedDataUrl := "e", width := 1,
            height := 1, processingTime := 0,
            fromCache := false } : ProcResult) 0) []).length =
      MAX_CACHE_SIZE ∧
    (∀ k ∈ ["k0", "k1", "k2", "k3", "k4", "k5", "k6", "k7", "k8", "k9",
        "k10"].take
        (["k0", "k1", "k2", "k3", "k4", "k5", "k6", "k7", "k8", "k9",
          "k10"].length - MAX_CACHE_SIZE),
      mapGet
        (["k0", "k1", "k2", "k3", "k4", "k5", "k6", "k7", "k8", "k9",
           "k10"].foldl
           (fun c k => cacheResult c k
             ({ originalDataUrl := "o", extractedDataUrl := "e", width := 1,
                height := 1, processingTime := 0,
                fromCache := false } : ProcResult) 0) []) k = none) ∧
    (∀ n : ℕ,
      ((["k0", "k1", "k2", "k3", "k4", "k5", "k6", "k7", "k8", "k9",
          "k10"].take n).foldl
          (fun c k => cacheResult c k
            ({ originalDataUrl := "o", extractedDataUrl := "e", width := 1,
               height := 1, processingTime := 0,
               fromCache := false } : ProcResult) 0) []).length ≤
        MAX_CACHE_SIZE) :=
  cacheResult_fifo_bound
    ["k0", "k1", "k2", "k3", "k4", "k5", "k6", "k7", "k8", "k9", "k10"]
    { originalDataUrl := "o", extractedDataUrl := "e", width := 1,
      height := 1, processingTime := 0, fromCache := false } 0
    (by decide) (by decide)

/-- C2 (witness): a concrete file processed twice 15 ms apart: first call
misses and invokes the API once, second call hits the cache with the same
stored fields and no further API invocation. -/
theorem processImage_cache_determinism_witness :
    ∃ r1 st1 r2 st2,
      processImage (fun _ => (.ok ⟨"o", "e", 3, 4⟩, 1))
          ⟨[], 0, true⟩ (some ⟨"a", 1, 0, "image/png"⟩) 0 5 =
        (.ok r1, st1) ∧
      processImage (fun _ => (.ok ⟨"o", "e", 3, 4⟩, 1))
          st1 (some ⟨"a", 1, 0, "image/png"⟩) 10 20 =
        (.ok r2, st2) ∧
      r1.fromCache = false ∧ r2.fromCache = true ∧
      r2.originalDataUrl = r1.originalDataUrl ∧
      r2.extractedDataUrl = r1.extractedDataUrl ∧
      r2.width = r1.width ∧ r2.height = r1.height ∧
      st1.apiCalls = (⟨[], 0, true⟩ : ProcState).apiCalls + 1 ∧
      st2.apiCalls = st1.apiCalls :=
  processImage_cache_determinism (fun _ => (.ok ⟨"o", "e", 3, 4⟩, 1))
    ⟨[], 0, true⟩ ⟨"a", 1, 0, "image/png"⟩ ⟨"o", "e", 3, 4⟩ 1 0 5 10 20
    rfl rfl rfl (by decide)

/-- C9 (witness): a failing pipeline leaves the initially empty cache
empty while the API call count shows the pipeline did run. -/
theorem processImage_error_no_cache_write_witness :
    List.Sublist
      ((⟨[], 2, true⟩ : ProcState).cache.map Prod.fst)
      ((⟨[], 0, true⟩ : ProcState).cache.map Prod.fst) ∧
    (⟨[], 2, true⟩ : ProcState).cache.length ≤
      (⟨[], 0, true⟩ : ProcState).cache.length :=
  processImage_error_no_cache_write
    (fun _ => (.error (mkError .NETWORK_ERROR .NETWORK_TIMEOUT true), 2))
    ⟨[], 0, true⟩ (some ⟨"a", 1, 0, "image/png"⟩) 0 0
    (mkError .NETWORK_ERROR .NETWORK_TIMEOUT true) ⟨[], 2, true⟩ rfl
